import Mathlib

/-
Verification of the context-resolution and extraction pipeline of
`emmet_sublime.py` (a Sublime Text adapter for an Emmet-style abbreviation
engine).  The file shallow-embeds the module's own functions as Lean
definitions.  External collaborators (the Sublime `view` object, the
`.emmet` engine package and the `.syntax` helper module, which are not part
of the single source file) are passed in as explicit function parameters,
so every theorem quantifies over their behaviour.
-/

namespace EmmetSublime

/-- Values stored in the Python dictionaries the module builds and passes
around.  Function objects that the module stores in option dictionaries
(`field`, `field_preview`, `escape_text`) are represented by dedicated
constructors, nested dictionaries by `vdict`. -/
inductive Val where
  | vstr (s : String)
  | vbool (b : Bool)
  | vint (n : Int)
  | vnone
  | vdict (d : List (String × Val))
  | vfieldDefault
  | vfieldPreview
  | vescapeText

/-- A Python dictionary with string keys. -/
abbrev Dict := List (String × Val)

/-- Association-list lookup: the model of Python `d.get(k)` / `k in d`. -/
def assocGet {α : Type} : List (String × α) → String → Option α
  | [], _ => none
  | (k, v) :: t, key => if k = key then some v else assocGet t key

/-- Association-list update: the model of Python `d[k] = v`.  Replaces the
binding in place when the key exists (keeping insertion order), appends
otherwise. -/
def assocSet {α : Type} : List (String × α) → String → α → List (String × α)
  | [], k, v => [(k, v)]
  | (k', v') :: t, k, v => if k' = k then (k, v) :: t else (k', v') :: assocSet t k v

/-- The model of Python `d.update(u)`: fold `assocSet` over the update. -/
def dictUpdate (d : Dict) (u : Dict) : Dict :=
  u.foldl (fun acc kv => assocSet acc kv.1 kv.2) d

/-- Python truthiness for the values of `Val`. -/
def truthy : Val → Bool
  | Val.vstr s => ! s.isEmpty
  | Val.vbool b => b
  | Val.vint n => n != 0
  | Val.vnone => false
  | Val.vdict d => ! d.isEmpty
  | Val.vfieldDefault => true
  | Val.vfieldPreview => true
  | Val.vescapeText => true

/-- A `sublime.Region`: a pair of offsets that may be reversed. -/
structure Region where
  a : Nat
  b : Nat
deriving DecidableEq

/-- `sublime.Region.begin()`: the smaller endpoint. -/
def Region.begin (r : Region) : Nat := min r.a r.b

/-- `sublime.Region.end()`: the larger endpoint (`end` is reserved in Lean). -/
def Region.end_ (r : Region) : Nat := max r.a r.b

/-- Python exceptions that the embedded code can raise. -/
inductive PyErr where
  | keyError
  | unboundLocalError
deriving DecidableEq

/-- The double-quote character. -/
def dquote : Char := Char.ofNat 34

/-- The single-quote character. -/
def squote : Char := Char.ofNat 39

/-- Drop all trailing occurrences of `c` from a character list (the list
engine of Python `str.rstrip`). -/
def rstripL (c : Char) (l : List Char) : List Char :=
  (l.reverse.dropWhile (fun x => x == c)).reverse

/-- Python `s.rstrip(c)` for a single-character argument. -/
def pyRstrip (s : String) (c : Char) : String :=
  String.mk (rstripL c s.data)

/-- Python `s.strip(c)` for a single-character argument: removes all
leading and all trailing occurrences of `c`. -/
def pyStrip (s : String) (c : Char) : String :=
  String.mk (rstripL c (s.data.dropWhile (fun x => x == c)))

/-- Python `s[a:b]` for `0 ≤ a ≤ b`. -/
def pySlice (s : String) (a b : Nat) : String :=
  String.mk ((s.data.drop a).take (b - a))

/-! ## Snippet field strategies (source lines 31-45) -/

/-- `field(index, placeholder)`: produces tabstops for the editor,
`"${index:placeholder}"` for a non-empty placeholder and `"${index}"`
otherwise. -/
def field (index : Int) (placeholder : String) : String :=
  if placeholder ≠ "" then
    "$\x7b" ++ toString index ++ ":" ++ placeholder ++ "\x7d"
  else
    "$\x7b" ++ toString index ++ "\x7d"

/-- `field_preview(index, placeholder)`: produces tabstops for abbreviation
preview — just the placeholder text. -/
def field_preview (_index : Int) (placeholder : String) : String :=
  placeholder

/-- `escape_text(text)`: escapes every `$` in plain text for snippet
output. -/
def escape_text (text : String) : String :=
  String.mk (text.data.foldr (fun c acc => if c == '$' then '\\' :: c :: acc else c :: acc) [])

/-! ## Expansion driver (source lines 48-68) -/

/-- The option bundle built by `expand` (source lines 50-62): the `cache`
entry, the output options (field strategy, text escaper, format flag), the
shallow merge of the caller's config, and the merge of the caller's nested
`options` sub-dictionary.  The function values stored under
`output.field` and `output.text` are represented by the dedicated `Val`
constructors. -/
def expand_options (config : Option Dict) (cache : Dict) : Dict :=
  let is_preview : Bool :=
    match config with
    | none => false
    | some c => if c.isEmpty then false else truthy ((assocGet c "preview").getD (Val.vbool false))
  let fmtFlag : Bool :=
    match config with
    | none => true
    | some c => if c.isEmpty then true else ! truthy ((assocGet c "inline").getD Val.vnone)
  let opt0 : Dict := [("cache", Val.vdict cache)]
  let output0 : Dict :=
    [("output.field", if is_preview then Val.vfieldPreview else Val.vfieldDefault),
     ("output.text", Val.vescapeText),
     ("output.format", Val.vbool fmtFlag)]
  let opt1 : Dict :=
    match config with
    | none => opt0
    | some c => dictUpdate opt0 c
  let output1 : Dict :=
    match config with
    | none => output0
    | some c =>
      match assocGet c "options" with
      | some (Val.vdict o) => dictUpdate output0 o
      | _ => output0
  assocSet opt1 "options" (Val.vdict output1)

/-- `expand(abbr, config)` (source lines 48-68).  The external expansion
engine is the parameter `engine`; `gs` models the settings store lookup
`settings.get(key, default=None)`; `hasView` tells whether
`sublime.active_window().active_view()` returned a view.  The source only
assigns `global_config` inside `if view:`, so when there is no view the
final call raises `UnboundLocalError`; the embedding returns that error. -/
def expand (abbr : String) (config : Option Dict) (cache : Dict) (hasView : Bool)
    (gs : String → Option Val) (engine : String → Dict → Val → String) :
    Except PyErr String :=
  let opt := expand_options config cache
  if hasView then
    Except.ok (engine abbr opt (match gs "config" with | some v => v | none => Val.vnone))
  else
    Except.error PyErr.unboundLocalError

/-! ## Math evaluator (source lines 109-123) -/

/-- Decimal digit characters. -/
def digitChars : List Char := ['0', '1', '2', '3', '4', '5', '6', '7', '8', '9']

/-- The character for the decimal digit `n % 10`. -/
def digitChar (n : Nat) : Char := digitChars.getD (n % 10) '0'

/-- Fuel-indexed digit rendering of a natural number (most significant
digit first).  The fuel is always at least the number itself, which is
ample. -/
def natDigitsAux : Nat → Nat → List Char
  | 0, _ => []
  | _ + 1, 0 => []
  | fuel + 1, n + 1 => natDigitsAux fuel ((n + 1) / 10) ++ [digitChar (n + 1)]

/-- Decimal digit rendering of a natural number, `['0']` for zero. -/
def natDigits (n : Nat) : List Char :=
  if n = 0 then ['0'] else natDigitsAux n n

/-- The fractional digits of `%.4f`: four digits, zero-padded on the left. -/
def padLeft4 (n : Nat) : List Char :=
  List.replicate (4 - (natDigits n).length) '0' ++ natDigits n

/-- Python `'%.4f' % r`, modelled over exact rationals standing in for the
source's floating-point value: the result rounded to four decimal places
and rendered with exactly one decimal point.  The rounded scaled value
`⌊r * 10000 + 1/2⌋` is computed by integer arithmetic as
`fdiv (20000 * num + den) (2 * den)`. -/
def fmt4 (r : Rat) : String :=
  let n : Int := Int.fdiv (20000 * r.num + Int.ofNat r.den) (2 * Int.ofNat r.den)
  let m : Nat := n.natAbs
  String.mk ((if n < 0 then ['-'] else []) ++
    natDigits (m / 10000) ++ '.' :: padLeft4 (m % 10000))

/-- The result dictionary produced by a successful `evaluate_math`. -/
structure MathResult where
  start : Nat
  end_ : Nat
  result : Rat
  snippet : String
deriving DecidableEq

/-- `evaluate_math(code, pos, options)` (source lines 109-123).  The
external scanner `extract` and evaluator `evaluate` from
`.emmet.math_expression` are the parameters `extractO` and `evalO`; an
exception raised by the evaluator (modelled as `Except.error`) is caught
by the bare `except:` and turned into an absent result. -/
def evaluate_math (code : String) (pos : Nat) (options : Option Dict)
    (extractO : String → Nat → Option Dict → Option (Nat × Nat))
    (evalO : String → Except Unit Rat) : Option MathResult :=
  match extractO code pos options with
  | none => none
  | some (s, e) =>
    match evalO (pySlice code s e) with
    | Except.error _ => none
    | Except.ok r => some ⟨s, e, r, pyRstrip (pyRstrip (fmt4 r) '0') '.'⟩

/-- Modelled from the spec: the external math expression scanner
`extractExpression(text, offset, options) -> Span | none` of the `.emmet`
package (part of this repository but not under `src/`).  It returns the
span of the contiguous arithmetic expression (digits, operators, parens,
decimal points) touching the offset; this model returns the whole string
when it consists of such characters only. -/
def spec_extract_math (code : String) (_pos : Nat) (_options : Option Dict) :
    Option (Nat × Nat) :=
  if code ≠ "" ∧ code.data.all
      (fun c => c.isDigit || c == '+' || c == '-' || c == '*' || c == '/' ||
        c == '.' || c == '(' || c == ')') then
    some (0, code.length)
  else
    none

/-- Split a character list on `/`, keeping empty pieces. -/
def splitSlash : List Char → List (List Char)
  | [] => [[]]
  | c :: t =>
    match splitSlash t with
    | [] => [[]]
    | h :: r => if c == '/' then [] :: h :: r else (c :: h) :: r

/-- Parse a non-empty all-digit character list as a natural number. -/
def parseNat (l : List Char) : Option Nat :=
  if l ≠ [] ∧ l.all Char.isDigit then
    some (l.foldl (fun acc c => acc * 10 + (c.toNat - 48)) 0)
  else
    none

/-- Modelled from the spec: the external evaluator
`evaluate(expressionText) -> number, raising on malformed expressions` of
the `.emmet` package (part of this repository but not under `src/`).
Handles the forms the claims exercise — a natural-number literal or a
single division — over exact rationals standing in for floats; division by
zero and anything unparsable raise (modelled as `Except.error`). -/
def spec_evaluate (s : String) : Except Unit Rat :=
  match splitSlash s.data with
  | [a] =>
    match parseNat a with
    | some n => Except.ok (mkRat (Int.ofNat n) 1)
    | none => Except.error ()
  | [a, b] =>
    match parseNat a, parseNat b with
    | some x, some y => if y = 0 then Except.error () else Except.ok (mkRat (Int.ofNat x) y)
    | _, _ => Except.error ()
  | _ => Except.error ()

/-! ## Tag context (source lines 126-157) -/

/-- An attribute as returned by the external tag matcher. -/
structure TagAttr where
  name : String
  value : Option String
deriving DecidableEq

/-- The match object returned by the external tag matcher. -/
structure MatchedTag where
  name : String
  attributes : List TagAttr
  open_ : Nat × Nat
  close : Option (Nat × Nat)
deriving DecidableEq

/-- The context dictionary built by `get_tag_context`; the `attributes`
dictionary is an insertion-ordered association list. -/
structure TagCtx where
  name : String
  attributes : List (String × Option String)
  open_ : Nat × Nat
  close : Option (Nat × Nat)
deriving DecidableEq

/-- The unquoting step of `get_tag_context` (source lines 150-155): when
the value is present and begins with a double or single quote, apply
Python `value.strip(value[0])`; otherwise keep the value unchanged. -/
def unquote : Option String → Option String
  | none => none
  | some v =>
    if v ≠ "" ∧ (v.front = dquote ∨ v.front = squote) then
      some (pyStrip v v.front)
    else
      some v

/-- The spec's words for claim C3, stated as a function to compare with
the source's `unquote`: strip exactly one matching quote character from
each end when the value begins with a double or single quote. -/
def strip_one_quote_spec (v : String) : String :=
  if v ≠ "" ∧ (v.front = dquote ∨ v.front = squote) then
    let w := v.drop 1
    if w ≠ "" ∧ w.back = v.front then w.dropRight 1 else w
  else
    v

/-- `get_tag_context(view, pt, xml)` (source lines 126-157).  The view's
full text is `content`; `syntaxXml` models the autodetected
`syntax.is_xml(syntax.from_pos(view, pt))` used when the `xml` argument is
absent; `mo` is the external `html_matcher.match` collaborator. -/
def get_tag_context (mo : String → Nat → Bool → Option MatchedTag)
    (content : String) (pt : Nat) (xmlArg : Option Bool) (syntaxXml : Bool) :
    Option TagCtx :=
  let xml := match xmlArg with | some x => x | none => syntaxXml
  match mo content pt xml with
  | none => none
  | some mt =>
    some { name := mt.name
           attributes := mt.attributes.foldl
             (fun acc attr => assocSet acc attr.name (unquote attr.value)) []
           open_ := mt.open_
           close := mt.close }

/-! ## CSS context (source lines 160-174) -/

/-- The backward scope walk of `get_css_context`, written as the source's
`while` loop with explicit fuel (outer `none` = the loop has not finished
within the given fuel).  The scanning position is carried as
`ctx_pos + 1 : Nat`, so the loop-exit test `ctx_pos >= 0` becomes a match
on zero.  `ms` is `view.match_selector`, `es` is `view.extract_scope`,
`sub` is `view.substr`. -/
def walkF (ms : Nat → String → Bool) (es : Nat → Region) (sub : Region → String) :
    Nat → Nat → Option (Option String)
  | _, 0 => some none
  | 0, _ + 1 => none
  | fuel + 1, n + 1 =>
    if ms n "section.property-list" || ms n "meta.selector" then
      some none
    else
      let r := es n
      if ms n "meta.property-name" then
        some (some (sub r))
      else
        walkF ms es sub fuel (Region.begin r)

/-- `get_css_context(view, pt)` (source lines 160-174): if the offset is
inside a property value, walk backward scope-by-scope looking for the
property name.  The loop fuel is the initial scanning position, which the
termination theorem shows is always enough under the `extract_scope`
containment contract. -/
def get_css_context (ms : Nat → String → Bool) (es : Nat → Region)
    (sub : Region → String) (pt : Nat) : Option (Option String) :=
  if ms pt "meta.property-value" then
    walkF ms es sub (Region.begin (es pt)) (Region.begin (es pt))
  else
    some none

/-! ## Abbreviation extraction (source lines 201-242) -/

/-- The match object returned by the external abbreviation scanner, with
offsets relative to the scanned text. -/
structure AbbrData where
  start : Nat
  end_ : Nat
  location : Nat
deriving DecidableEq

/-- The `loc` argument of `extract_abbreviation`: a character location, a
list/tuple/Region (all normalised to a `Region`), or anything else. -/
inductive Loc where
  | pt (n : Nat)
  | rng (a b : Nat)
  | other
deriving DecidableEq

/-- The per-type option adjustment of `extract_abbreviation` (source lines
229-232): reading `opt['type']` raises `KeyError` when the key is absent
(modelled as `none`); when the type is `stylesheet`, look-ahead is
force-disabled by writing `opt['lookAhead'] = False`. -/
def effective_options (opt : Dict) : Option Dict :=
  match assocGet opt "type" with
  | none => none
  | some (Val.vstr t) =>
    if t = "stylesheet" then some (assocSet opt "lookAhead" (Val.vbool false)) else some opt
  | some _ => some opt

/-- The shared tail of `extract_abbreviation` (source lines 223-242) once
the scanned region and effective offset are known: resolve the options
(falling back to `get_options`, abstracted as `getOpts` because it reads
the external `syntax` module), apply the stylesheet look-ahead override,
run the external scanner `extractO` on the region-relative offset, and
translate the three returned offsets by the region's start. -/
def extract_core (substrOf : Region → String) (getOpts : Nat → Dict)
    (extractO : String → Nat → Dict → Option AbbrData)
    (region : Region) (pt : Nat) (optArg : Option Dict) :
    Except PyErr (Option (AbbrData × Dict)) :=
  let text := substrOf region
  let begin := Region.begin region
  let opt := optArg.getD (getOpts pt)
  match effective_options opt with
  | none => Except.error PyErr.keyError
  | some o =>
    match extractO text (pt - begin) o with
    | some d => Except.ok (some (⟨d.start + begin, d.end_ + begin, d.location + begin⟩, o))
    | none => Except.ok none

/-- `extract_abbreviation(view, loc, opt)` (source lines 201-242).
`lineOf` is `view.line`, `substrOf` is `view.substr`, `getOpts` abstracts
`get_options(view, pt)` (it reads the external `syntax` module), and
`extractO` is the external `extract` scanner of the `.emmet` package. -/
def extract_abbreviation (lineOf : Nat → Region) (substrOf : Region → String)
    (getOpts : Nat → Dict) (extractO : String → Nat → Dict → Option AbbrData)
    (loc : Loc) (optArg : Option Dict) :
    Except PyErr (Option (AbbrData × Dict)) :=
  match loc with
  | Loc.other => Except.ok none
  | Loc.pt p => extract_core substrOf getOpts extractO (lineOf p) p optArg
  | Loc.rng a b => extract_core substrOf getOpts extractO ⟨a, b⟩ (Region.end_ ⟨a, b⟩) optArg

/-- A heap of Python dictionary objects, used to make the in-place
mutation of the caller's options dictionary observable. -/
abbrev Heap := Nat → Dict

/-- `extract_abbreviation` again, with the options dictionary passed by
reference into an explicit heap, mirroring Python's object semantics: the
statement `opt['lookAhead'] = False` updates the dictionary at the
caller's reference (no copy is ever made), and when no options are passed
a fresh dictionary from `get_options` is allocated at address `fresh`.
Returns the result (holding the reference to the options object the
source returns) together with the final heap. -/
def extract_abbreviation_heap (lineOf : Nat → Region) (substrOf : Region → String)
    (getOpts : Nat → Dict) (extractO : String → Nat → Dict → Option AbbrData)
    (heap : Heap) (optRef : Option Nat) (fresh : Nat) (loc : Loc) :
    Except PyErr (Option (AbbrData × Nat)) × Heap :=
  match loc with
  | Loc.other => (Except.ok none, heap)
  | Loc.pt p => extract_core_heap substrOf getOpts extractO heap optRef fresh (lineOf p) p
  | Loc.rng a b =>
    extract_core_heap substrOf getOpts extractO heap optRef fresh ⟨a, b⟩ (Region.end_ ⟨a, b⟩)
where
  extract_core_heap (substrOf : Region → String) (getOpts : Nat → Dict)
      (extractO : String → Nat → Dict → Option AbbrData)
      (heap : Heap) (optRef : Option Nat) (fresh : Nat) (region : Region) (pt : Nat) :
      Except PyErr (Option (AbbrData × Nat)) × Heap :=
    let text := substrOf region
    let begin := Region.begin region
    let refAndHeap : Nat × Heap :=
      match optRef with
      | some r => (r, heap)
      | none => (fresh, fun x => if x = fresh then getOpts pt else heap x)
    let ref := refAndHeap.1
    let heap1 := refAndHeap.2
    let opt := heap1 ref
    match assocGet opt "type" with
    | none => (Except.error PyErr.keyError, heap1)
    | some tv =>
      let heap2 : Heap :=
        match tv with
        | Val.vstr t =>
          if t = "stylesheet" then
            fun x => if x = ref then assocSet opt "lookAhead" (Val.vbool false) else heap1 x
          else heap1
        | _ => heap1
      match extractO text (pt - begin) (heap2 ref) with
      | some d =>
        (Except.ok (some (⟨d.start + begin, d.end_ + begin, d.location + begin⟩, ref)), heap2)
      | none => (Except.ok none, heap2)

/-! ## Cache invalidation (source lines 17-18, 250-252) -/

/-- The initial value of the module-level `emmet_cache` dictionary. -/
def emmet_cache : Dict := []

/-- `handle_settings_change()` (source lines 250-252): rebinds the shared
`emmet_cache` to a fresh empty dictionary, whatever it held before. -/
def handle_settings_change (_cache : Dict) : Dict := []

/-! ## Helper lemmas -/

theorem assocGet_assocSet {α : Type} (d : List (String × α)) (k : String) (v : α) :
    assocGet (assocSet d k v) k = some v := by
  induction d with
  | nil => simp [assocSet, assocGet]
  | cons hd t ih =>
    obtain ⟨k', v'⟩ := hd
    by_cases h : k' = k
    · simp [assocSet, h, assocGet]
    · simp [assocSet, h, assocGet, ih]

theorem head?_dropWhile_ne (p : Char → Bool) (l : List Char) (x : Char)
    (h : (l.dropWhile p).head? = some x) : p x = false := by
  induction l with
  | nil => simp [List.dropWhile] at h
  | cons a t ih =>
    rw [List.dropWhile_cons] at h
    by_cases hp : p a
    · rw [if_pos hp] at h
      exact ih h
    · rw [if_neg hp] at h
      simp only [List.head?_cons, Option.some.injEq] at h
      subst h
      simpa using hp

theorem getLast?_rstripL (c : Char) (l : List Char) :
    (rstripL c l).getLast? ≠ some c := by
  unfold rstripL
  rw [List.getLast?_reverse]
  intro h
  have hb := head?_dropWhile_ne (fun x => x == c) l.reverse c h
  simp at hb

theorem count_rstripL_le (c c' : Char) (l : List Char) :
    (rstripL c' l).count c ≤ l.count c := by
  unfold rstripL
  rw [List.count_reverse]
  calc (l.reverse.dropWhile (fun x => x == c')).count c
      ≤ l.reverse.count c := (List.dropWhile_sublist _).count_le c
    _ = l.count c := List.count_reverse c l

theorem rstripL_eq_or_count_lt (c : Char) (l : List Char) :
    rstripL c l = l ∨ (rstripL c l).count c < l.count c := by
  unfold rstripL
  cases hrev : l.reverse with
  | nil =>
    left
    have hl : l = [] := List.reverse_eq_nil_iff.mp hrev
    simp [hl]
  | cons x t =>
    by_cases hx : (x == c) = true
    · right
      rw [List.dropWhile_cons, if_pos hx, List.count_reverse]
      have h2 : (t.dropWhile (fun y => y == c)).count c ≤ t.count c :=
        (List.dropWhile_sublist _).count_le c
      have h3 : l.count c = (x :: t).count c := by
        rw [← List.count_reverse c l, hrev]
      have hxc : x = c := by simpa using hx
      rw [h3, hxc, List.count_cons_self]
      omega
    · left
      rw [List.dropWhile_cons, if_neg hx, ← hrev, List.reverse_reverse]

theorem digitChar_mem (n : Nat) : digitChar n ∈ digitChars := by
  unfold digitChar
  have h : n % 10 < 10 := Nat.mod_lt _ (by decide)
  revert h
  generalize n % 10 = m
  intro h
  interval_cases m <;> decide

theorem mem_natDigitsAux (fuel n : Nat) (c : Char) (h : c ∈ natDigitsAux fuel n) :
    c ∈ digitChars := by
  induction fuel generalizing n with
  | zero => simp [natDigitsAux] at h
  | succ f ih =>
    cases n with
    | zero => simp [natDigitsAux] at h
    | succ m =>
      rw [natDigitsAux] at h
      rcases List.mem_append.mp h with h1 | h2
      · exact ih _ h1
      · simp only [List.mem_singleton] at h2
        subst h2
        exact digitChar_mem _

theorem mem_natDigits (n : Nat) (c : Char) (h : c ∈ natDigits n) : c ∈ digitChars := by
  unfold natDigits at h
  by_cases h0 : n = 0
  · rw [if_pos h0] at h
    simp only [List.mem_singleton] at h
    subst h
    decide
  · rw [if_neg h0] at h
    exact mem_natDigitsAux _ _ _ h

theorem count_dot_natDigits (n : Nat) : (natDigits n).count '.' = 0 := by
  rw [List.count_eq_zero]
  intro h
  exact absurd (mem_natDigits n '.' h) (by decide)

theorem count_dot_padLeft4 (n : Nat) : (padLeft4 n).count '.' = 0 := by
  rw [List.count_eq_zero]
  intro h
  unfold padLeft4 at h
  rcases List.mem_append.mp h with h1 | h2
  · exact absurd (List.eq_of_mem_replicate h1) (by decide)
  · exact absurd (mem_natDigits _ _ h2) (by decide)

theorem count_dot_fmt4 (r : Rat) : (fmt4 r).data.count '.' = 1 := by
  show ((if Int.fdiv (20000 * r.num + Int.ofNat r.den) (2 * Int.ofNat r.den) < 0 then
      ['-'] else []) ++
    natDigits ((Int.fdiv (20000 * r.num + Int.ofNat r.den) (2 * Int.ofNat r.den)).natAbs / 10000) ++
    '.' :: padLeft4 ((Int.fdiv (20000 * r.num + Int.ofNat r.den)
      (2 * Int.ofNat r.den)).natAbs % 10000)).count '.' = 1
  rw [List.count_append, List.count_append, List.count_cons_self,
    count_dot_natDigits, count_dot_padLeft4]
  split <;> decide

theorem snippet_no_trailing (r : Rat) :
    (pyRstrip (pyRstrip (fmt4 r) '0') '.').data.getLast? ≠ some '.' ∧
    ('.' ∈ (pyRstrip (pyRstrip (fmt4 r) '0') '.').data →
      (pyRstrip (pyRstrip (fmt4 r) '0') '.').data.getLast? ≠ some '0') := by
  have hdata : (pyRstrip (pyRstrip (fmt4 r) '0') '.').data
      = rstripL '.' (rstripL '0' (fmt4 r).data) := rfl
  constructor
  · rw [hdata]
    exact getLast?_rstripL '.' _
  · intro hmem hlast
    rw [hdata] at hmem hlast
    rcases rstripL_eq_or_count_lt '.' (rstripL '0' (fmt4 r).data) with he | hlt
    · rw [he] at hlast
      exact getLast?_rstripL '0' (fmt4 r).data hlast
    · have h1 : (rstripL '0' (fmt4 r).data).count '.' ≤ (fmt4 r).data.count '.' :=
        count_rstripL_le '.' '0' _
      have h2 := count_dot_fmt4 r
      have h0 : (rstripL '.' (rstripL '0' (fmt4 r).data)).count '.' = 0 := by omega
      exact (List.count_eq_zero.mp h0) hmem

theorem extract_core_lookahead (substrOf : Region → String) (getOpts : Nat → Dict)
    (extractO : String → Nat → Dict → Option AbbrData) (region : Region) (pt : Nat)
    (opt : Dict) (d : AbbrData) (o : Dict)
    (h : assocGet opt "type" = some (Val.vstr "stylesheet"))
    (hex : extract_core substrOf getOpts extractO region pt (some opt)
      = Except.ok (some (d, o))) :
    assocGet o "lookAhead" = some (Val.vbool false) := by
  have h1 : effective_options opt = some (assocSet opt "lookAhead" (Val.vbool false)) := by
    unfold effective_options
    rw [h]
    simp
  unfold extract_core at hex
  simp only [Option.getD_some, h1] at hex
  cases hE : extractO (substrOf region) (pt - Region.begin region)
      (assocSet opt "lookAhead" (Val.vbool false)) with
  | none => simp [hE] at hex
  | some d' =>
    simp only [hE, Except.ok.injEq, Option.some.injEq, Prod.mk.injEq] at hex
    rw [← hex.2]
    exact assocGet_assocSet _ _ _

theorem extract_core_heap_mutates (substrOf : Region → String) (getOpts : Nat → Dict)
    (extractO : String → Nat → Dict → Option AbbrData) (heap : Heap) (ref fresh : Nat)
    (region : Region) (pt : Nat)
    (h : assocGet (heap ref) "type" = some (Val.vstr "stylesheet")) :
    assocGet ((extract_abbreviation_heap.extract_core_heap substrOf getOpts extractO
        heap (some ref) fresh region pt).2 ref) "lookAhead" = some (Val.vbool false) := by
  unfold extract_abbreviation_heap.extract_core_heap
  simp only [h]
  cases hE : extractO (substrOf region) (pt - Region.begin region)
      (assocSet (heap ref) "lookAhead" (Val.vbool false)) with
  | none => simp [hE, assocGet_assocSet]
  | some d => simp [hE, assocGet_assocSet]

theorem walkF_le (ms : Nat → String → Bool) (es : Nat → Region) (sub : Region → String)
    (h : ∀ p, Region.begin (es p) ≤ p) :
    ∀ fuel n, n ≤ fuel → (walkF ms es sub fuel n).isSome = true := by
  intro fuel
  induction fuel with
  | zero =>
    intro n hn
    have h0 : n = 0 := Nat.le_zero.mp hn
    subst h0
    simp [walkF]
  | succ f ih =>
    intro n hn
    cases n with
    | zero => simp [walkF]
    | succ m =>
      rw [walkF]
      split
      · simp
      · split
        · simp
        · exact ih _ (le_trans (h m) (by omega))

/-! ## Claim theorems -/

/-- C1: for every call to `extract_abbreviation` whose resolved or
caller-supplied options dictionary has type `stylesheet`, the effective
options handed to the external token extractor (and returned alongside
the match) carry `lookAhead = False`, even when the caller explicitly
set `lookAhead` to `True` — the override at source lines 229-232 always
rewrites the flag. -/
theorem stylesheet_lookahead_disabled (opt : Dict)
    (h : assocGet opt "type" = some (Val.vstr "stylesheet")) :
    effective_options opt = some (assocSet opt "lookAhead" (Val.vbool false)) ∧
    assocGet (assocSet opt "lookAhead" (Val.vbool false)) "lookAhead"
      = some (Val.vbool false) ∧
    (∀ (lineOf : Nat → Region) (substrOf : Region → String) (getOpts : Nat → Dict)
      (extractO : String → Nat → Dict → Option AbbrData) (loc : Loc)
      (d : AbbrData) (o : Dict),
      extract_abbreviation lineOf substrOf getOpts extractO loc (some opt)
        = Except.ok (some (d, o)) →
      assocGet o "lookAhead" = some (Val.vbool false)) := by
  have h1 : effective_options opt = some (assocSet opt "lookAhead" (Val.vbool false)) := by
    unfold effective_options
    rw [h]
    simp
  refine ⟨h1, assocGet_assocSet _ _ _, ?_⟩
  intro lineOf substrOf getOpts extractO loc d o hex
  cases loc with
  | other => simp [extract_abbreviation] at hex
  | pt p => exact extract_core_lookahead _ _ _ _ _ _ _ _ h hex
  | rng a b => exact extract_core_lookahead _ _ _ _ _ _ _ _ h hex

/-- C1 witness: a caller-supplied stylesheet options dictionary that
explicitly sets `lookAhead` to `True` still comes out with the flag
forced to `False`. -/
theorem stylesheet_lookahead_disabled_witness :
    effective_options [("type", Val.vstr "stylesheet"), ("lookAhead", Val.vbool true)]
      = some (assocSet [("type", Val.vstr "stylesheet"), ("lookAhead", Val.vbool true)]
          "lookAhead" (Val.vbool false)) :=
  (stylesheet_lookahead_disabled
    [("type", Val.vstr "stylesheet"), ("lookAhead", Val.vbool true)] rfl).1

/-- C2: extraction over an explicit range `[a, b)` translates the
relative match offsets `(s, e, loc)` returned by the external extractor
into the absolute offsets `(s + a, e + a, loc + a)` — all three fields
shifted by the same range start. -/
theorem range_offsets_translated (lineOf : Nat → Region) (substrOf : Region → String)
    (getOpts : Nat → Dict) (extractO : String → Nat → Dict → Option AbbrData)
    (a b : Nat) (hab : a ≤ b) (opt effOpt : Dict)
    (he : effective_options opt = some effOpt) (s e l : Nat)
    (hx : extractO (substrOf ⟨a, b⟩) (b - a) effOpt = some ⟨s, e, l⟩) :
    extract_abbreviation lineOf substrOf getOpts extractO (Loc.rng a b) (some opt)
      = Except.ok (some (⟨s + a, e + a, l + a⟩, effOpt)) := by
  have hmin : Region.begin ⟨a, b⟩ = a := by
    simp [Region.begin, Nat.min_eq_left hab]
  have hmax : Region.end_ ⟨a, b⟩ = b := by
    simp [Region.end_, Nat.max_eq_right hab]
  have hstep : extract_abbreviation lineOf substrOf getOpts extractO (Loc.rng a b) (some opt)
      = extract_core substrOf getOpts extractO ⟨a, b⟩ (Region.end_ ⟨a, b⟩) (some opt) := rfl
  rw [hstep, hmax]
  simp only [extract_core, Option.getD_some, hmin, he, hx]

/-- C2 witness: a concrete extraction over the range `[5, 7)` with a
relative match `(0, 2, 1)` yields the absolute match `(5, 7, 6)`. -/
theorem range_offsets_translated_witness :
    extract_abbreviation (fun _ => ⟨0, 0⟩) (fun _ => "ul>li") (fun _ => [])
        (fun _ _ _ => some ⟨0, 2, 1⟩) (Loc.rng 5 7) (some [("type", Val.vstr "markup")])
      = Except.ok (some (⟨5, 7, 6⟩, [("type", Val.vstr "markup")])) :=
  range_offsets_translated (fun _ => ⟨0, 0⟩) (fun _ => "ul>li") (fun _ => [])
    (fun _ _ _ => some ⟨0, 2, 1⟩) 5 7 (by decide)
    [("type", Val.vstr "markup")] [("type", Val.vstr "markup")] rfl 0 2 1 rfl

/-- C3 counterexample: the claim says exactly one matching quote is
stripped from each end, but the source uses Python `value.strip(value[0])`,
which strips ALL leading and trailing occurrences: the attribute value
`""foo""` becomes `foo`, while stripping one quote from each end would
give `"foo"`. -/
theorem quote_strip_claim_counterexample :
    get_tag_context (fun _ _ _ => some ⟨"div", [⟨"title", some "\"\"foo\"\""⟩], (0, 5), none⟩)
        "" 0 none false
      = some ⟨"div", [("title", some "foo")], (0, 5), none⟩ ∧
    strip_one_quote_spec "\"\"foo\"\"" = "\"foo\"" ∧
    unquote (some "\"\"foo\"\"") ≠ some (strip_one_quote_spec "\"\"foo\"\"") := by
  refine ⟨rfl, by decide, by decide⟩

/-- C3 (amended): `get_tag_context` unquotes each attribute value with
Python `value.strip(value[0])`, removing all leading and trailing
occurrences of the opening quote character when the value begins with a
double or single quote (so a value with a single quote at each end loses
exactly one from each end); `"foo"` and `'foo'` yield `foo`, an unquoted
value is unchanged, and an empty value stays empty. -/
theorem quote_strip_all_amended :
    (∀ v : String, v ≠ "" → (v.front = dquote ∨ v.front = squote) →
      unquote (some v) = some (pyStrip v v.front)) ∧
    (∀ v : String, ¬(v ≠ "" ∧ (v.front = dquote ∨ v.front = squote)) →
      unquote (some v) = some v) ∧
    unquote (some "\"foo\"") = some "foo" ∧
    unquote (some "'foo'") = some "foo" ∧
    unquote (some "foo") = some "foo" ∧
    unquote (some "") = some "" ∧
    (∀ (mo : String → Nat → Bool → Option MatchedTag) (content : String) (pt : Nat)
      (xmlArg : Option Bool) (syntaxXml : Bool),
      get_tag_context mo content pt xmlArg syntaxXml =
        match mo content pt (match xmlArg with | some x => x | none => syntaxXml) with
        | none => none
        | some mt =>
          some ⟨mt.name,
            mt.attributes.foldl
              (fun acc attr => assocSet acc attr.name (unquote attr.value)) [],
            mt.open_, mt.close⟩) := by
  refine ⟨?_, ?_, by decide, by decide, by decide, by decide, ?_⟩
  · intro v h1 h2
    have hu : unquote (some v)
        = if v ≠ "" ∧ (v.front = dquote ∨ v.front = squote) then
            some (pyStrip v v.front)
          else some v := rfl
    rw [hu, if_pos ⟨h1, h2⟩]
  · intro v h
    have hu : unquote (some v)
        = if v ≠ "" ∧ (v.front = dquote ∨ v.front = squote) then
            some (pyStrip v v.front)
          else some v := rfl
    rw [hu, if_neg h]
  · intro mo content pt xmlArg syntaxXml
    rfl

/-- C3 witness: a double-quoted value goes through the Python strip of
its opening quote character. -/
theorem quote_strip_all_amended_witness :
    unquote (some "\"foo\"") = some (pyStrip "\"foo\"" (String.front "\"foo\"")) :=
  quote_strip_all_amended.1 "\"foo\"" (by decide) (Or.inl (by decide))

/-- C4: the claim fails on the code.  When there is no active view,
`global_config` is only assigned under `if view:` and the unconditional
use on the return line raises `UnboundLocalError` — the call does NOT
fall back to defaults.  (With a view present, absent settings do degrade:
the lookup default is `None` and the call succeeds for any engine.) -/
theorem expand_no_view_error :
    expand "p" none [] false (fun _ => none) (fun _ _ _ => "")
      = Except.error PyErr.unboundLocalError ∧
    (∀ (abbr : String) (config : Option Dict) (cache : Dict) (gs : String → Option Val)
      (engine : String → Dict → Val → String),
      expand abbr config cache true gs engine =
        Except.ok (engine abbr (expand_options config cache)
          (match gs "config" with | some v => v | none => Val.vnone))) := by
  exact ⟨rfl, fun _ _ _ _ _ => rfl⟩

/-- C5: `evaluate_math` never lets a failure escape: when the scanner
finds no expression, or when the evaluator raises (malformed expression,
division by zero — modelled as `Except.error`), the result is `none`,
indistinguishable from finding no expression. -/
theorem evaluate_math_suppresses_errors (code : String) (pos : Nat) (options : Option Dict)
    (extractO : String → Nat → Option Dict → Option (Nat × Nat))
    (evalO : String → Except Unit Rat) :
    (extractO code pos options = none →
      evaluate_math code pos options extractO evalO = none) ∧
    (∀ s e, extractO code pos options = some (s, e) →
      evalO (pySlice code s e) = Except.error () →
      evaluate_math code pos options extractO evalO = none) := by
  constructor
  · intro h
    unfold evaluate_math
    rw [h]
  · intro s e h1 h2
    unfold evaluate_math
    rw [h1]
    show (match evalO (pySlice code s e) with
      | Except.error _ => none
      | Except.ok r =>
        some (⟨s, e, r, pyRstrip (pyRstrip (fmt4 r) '0') '.'⟩ : MathResult)) = none
    rw [h2]

/-- C5 witness: the division-by-zero expression `1/0` is extracted but
its evaluation raises, and the caller just sees an absent result. -/
theorem evaluate_math_suppresses_errors_witness :
    evaluate_math "1/0" 0 none spec_extract_math spec_evaluate = none :=
  (evaluate_math_suppresses_errors "1/0" 0 none spec_extract_math spec_evaluate).2
    0 3 rfl rfl

/-- C6: whenever `evaluate_math` succeeds, the snippet string is the
`%.4f` rendering of the numeric result with trailing zeros and then a
trailing decimal point stripped: it never ends in a decimal point, and if
it still contains a decimal point it does not end in `0`; for the
expression `2/3` the snippet is exactly `0.6667`. -/
theorem evaluate_math_snippet_trimmed :
    (∀ (code : String) (pos : Nat) (options : Option Dict)
      (extractO : String → Nat → Option Dict → Option (Nat × Nat))
      (evalO : String → Except Unit Rat) (m : MathResult),
      evaluate_math code pos options extractO evalO = some m →
      m.snippet = pyRstrip (pyRstrip (fmt4 m.result) '0') '.' ∧
      m.snippet.data.getLast? ≠ some '.' ∧
      ('.' ∈ m.snippet.data → m.snippet.data.getLast? ≠ some '0')) ∧
    evaluate_math "2/3" 1 none spec_extract_math spec_evaluate
      = some ⟨0, 3, mkRat 2 3, "0.6667"⟩ := by
  constructor
  · intro code pos options extractO evalO m h
    unfold evaluate_math at h
    cases hE : extractO code pos options with
    | none =>
      rw [hE] at h
      exact absurd h (by simp)
    | some se =>
      obtain ⟨s, e⟩ := se
      rw [hE] at h
      replace h : (match evalO (pySlice code s e) with
        | Except.error _ => none
        | Except.ok r =>
          some (⟨s, e, r, pyRstrip (pyRstrip (fmt4 r) '0') '.'⟩ : MathResult)) = some m := h
      cases hV : evalO (pySlice code s e) with
      | error u =>
        rw [hV] at h
        simp at h
      | ok v =>
        rw [hV] at h
        simp only [Option.some.injEq] at h
        subst h
        exact ⟨rfl, (snippet_no_trailing v).1, (snippet_no_trailing v).2⟩
  · rfl

/-- C6 witness: the concrete result for `2/3` satisfies the trimming
properties. -/
theorem evaluate_math_snippet_trimmed_witness :
    ("0.6667" : String) = pyRstrip (pyRstrip (fmt4 (mkRat 2 3)) '0') '.' ∧
    ("0.6667" : String).data.getLast? ≠ some '.' ∧
    ('.' ∈ ("0.6667" : String).data → ("0.6667" : String).data.getLast? ≠ some '0') :=
  evaluate_math_snippet_trimmed.1 "2/3" 1 none spec_extract_math spec_evaluate
    ⟨0, 3, mkRat 2 3, "0.6667"⟩ evaluate_math_snippet_trimmed.2

/-- C7: the default field strategy renders a tabstop with the placeholder
as default text and an isolated marker when the placeholder is empty,
while the preview strategy renders the bare placeholder; for index 2 and
placeholder `text` the renderings are `${2:text}` and `text`, and
`expand` selects the preview strategy exactly when the caller requests
preview mode. -/
theorem field_rendering :
    (∀ (i : Int) (p : String), p ≠ "" →
      field i p = "$\x7b" ++ toString i ++ ":" ++ p ++ "\x7d") ∧
    (∀ i : Int, field i "" = "$\x7b" ++ toString i ++ "\x7d") ∧
    (∀ (i : Int) (p : String), field_preview i p = p) ∧
    field 2 "text" = "$\x7b2:text\x7d" ∧
    field 2 "" = "$\x7b2\x7d" ∧
    field_preview 2 "text" = "text" ∧
    (∃ o, assocGet (expand_options (some [("preview", Val.vbool true)]) []) "options"
        = some (Val.vdict o) ∧ assocGet o "output.field" = some Val.vfieldPreview) ∧
    (∃ o, assocGet (expand_options none []) "options"
        = some (Val.vdict o) ∧ assocGet o "output.field" = some Val.vfieldDefault) := by
  refine ⟨?_, ?_, fun i p => rfl, by decide, by decide, rfl, ⟨_, rfl, rfl⟩, ⟨_, rfl, rfl⟩⟩
  · intro i p hp
    unfold field
    rw [if_pos hp]
  · intro i
    unfold field
    rw [if_neg]
    simp

/-- C7 witness: a non-empty placeholder renders as a numbered tabstop
with default text. -/
theorem field_rendering_witness :
    field 7 "ph" = "$\x7b7:ph\x7d" :=
  field_rendering.1 7 "ph" (by decide)

/-- C8: handling a configuration-change notification leaves the shared
grammar cache empty, whatever it held before — the clearing is total. -/
theorem settings_change_clears_cache :
    ∀ cache : Dict, handle_settings_change cache = [] ∧
      (handle_settings_change cache).length = 0 :=
  fun _ => ⟨rfl, rfl⟩

/-- C9: under the `extract_scope` containment contract (a scope extracted
at position `p` starts at or before `p`), the backward walk of
`get_css_context` terminates: every iteration moves the scanning position
to `scope.begin() - 1 < position`, so the loop finishes within the
initial position's worth of iterations (fuel is never exhausted). -/
theorem css_context_walk_terminates (ms : Nat → String → Bool) (es : Nat → Region)
    (sub : Region → String) (h : ∀ p, Region.begin (es p) ≤ p) (pt : Nat) :
    (get_css_context ms es sub pt).isSome = true := by
  unfold get_css_context
  split
  · exact walkF_le ms es sub h _ _ (le_refl _)
  · rfl

/-- C9 witness: a concrete view oracle satisfying the containment
contract terminates. -/
theorem css_context_walk_terminates_witness :
    (get_css_context (fun _ s => s = "meta.property-value") (fun p => ⟨p, p⟩)
        (fun _ => "color") 4).isSome = true :=
  css_context_walk_terminates _ _ _ (fun p => by simp [Region.begin]) 4

/-- C10: when the caller supplies its options dictionary (a heap
reference), `extract_abbreviation` with a stylesheet type mutates that
same dictionary in place — after the call the caller's reference shows
`lookAhead = False`, whether or not a match was found. -/
theorem extract_mutates_caller_options (lineOf : Nat → Region) (substrOf : Region → String)
    (getOpts : Nat → Dict) (extractO : String → Nat → Dict → Option AbbrData)
    (heap : Heap) (ref fresh : Nat) (loc : Loc)
    (h1 : loc ≠ Loc.other)
    (h2 : assocGet (heap ref) "type" = some (Val.vstr "stylesheet")) :
    assocGet ((extract_abbreviation_heap lineOf substrOf getOpts extractO heap
        (some ref) fresh loc).2 ref) "lookAhead" = some (Val.vbool false) := by
  cases loc with
  | other => exact absurd rfl h1
  | pt p =>
    exact extract_core_heap_mutates substrOf getOpts extractO heap ref fresh (lineOf p) p h2
  | rng a b =>
    exact extract_core_heap_mutates substrOf getOpts extractO heap ref fresh ⟨a, b⟩
      (Region.end_ ⟨a, b⟩) h2

/-- C10 witness: a caller dictionary with `lookAhead = True` is visibly
mutated to `lookAhead = False` even though the extractor finds nothing. -/
theorem extract_mutates_caller_options_witness :
    assocGet ((extract_abbreviation_heap (fun _ => ⟨0, 0⟩) (fun _ => "m10") (fun _ => [])
        (fun _ _ _ => none)
        (fun _ => [("type", Val.vstr "stylesheet"), ("lookAhead", Val.vbool true)])
        (some 0) 1 (Loc.pt 3)).2 0) "lookAhead" = some (Val.vbool false) :=
  extract_mutates_caller_options _ _ _ _ _ 0 1 (Loc.pt 3) (by decide) rfl

end EmmetSublime
